import Mathlib

/-!
Shallow embedding of `ipvanish.py` (class `IPVanishManager`).

The program discovers VPN endpoints from a ZIP archive, resolves them to
IPv4 addresses over DNS with bounded retry, classifies each IP into a CIDR
subnet via an HTTP lookup with bounded retry and a `/24` fallback, and
merges the observed IPs into a persisted CSV record store.

Network and filesystem effects are modelled by explicit outcome oracles:
each retry attempt consumes one element of an outcome list (the list's
length plays the role of `max_retries`), and `run` produces a trace of the
file operations it performs.  Exceptions are modelled with `Except`;
Python truthiness of strings (`if subnet := ...`) is modelled by an
explicit emptiness test.
-/

/-- A persisted IP record: one row of `ipvanish_ips.csv`
(`ip,first_seen,last_seen`). -/
structure IPRecord where
  ip : String
  first_seen : String
  last_seen : String
deriving Repr, DecidableEq

/-- Python `s.split('.')` on the character list of a string: splitting on a
single-character separator, where the empty string splits to `[""]`. -/
def splitDot : List Char → List (List Char)
  | [] => [[]]
  | c :: rest =>
    match splitDot rest with
    | [] => [[]]
    | g :: gs => if c = '.' then [] :: g :: gs else (c :: g) :: gs

/-- Python `'.'.join(parts)`. -/
def joinDot : List String → String
  | [] => ""
  | [x] => x
  | x :: rest => x ++ "." ++ joinDot rest

/-- The `/24` fallback of `fetch_subnet_for_ip`, line 89:
`f"{'.'.join(ip.split('.')[:3])}.0/24"`. -/
def fallbackSubnet (ip : String) : String :=
  joinDot (((splitDot ip.data).take 3).map String.mk) ++ ".0/24"

/-- Outcome of one DNS resolution attempt for one hostname:
either an exception, or a first A-record address. -/
inductive DnsOutcome where
  | error
  | ok (ip : String)
deriving Repr, DecidableEq

/-- Outcome of one subnet-lookup attempt for one IP: an exception
(transport error, non-success status, bad JSON), or a successful response
whose `network.cidr` field is `some` string or absent (`none`). -/
inductive LookupOutcome where
  | error
  | ok (cidr : Option String)
deriving Repr, DecidableEq

/-- Observable result of one retry loop: the produced value if any attempt
succeeded, the number of attempts performed, and the number of
`time.sleep(retry_delay)` calls performed. -/
structure LoopTrace (α : Type) where
  result : Option α
  attempts : Nat
  sleeps : Nat
deriving Repr, DecidableEq

/-- The per-hostname retry loop of `resolve_dns`, lines 59-69: each failed
attempt sleeps unless it is the last one; a success stops retrying. -/
def resolveLoop : List DnsOutcome → LoopTrace String
  | [] => { result := none, attempts := 0, sleeps := 0 }
  | DnsOutcome.ok ip :: _ => { result := some ip, attempts := 1, sleeps := 0 }
  | DnsOutcome.error :: rest =>
    let r := resolveLoop rest
    { result := r.result, attempts := r.attempts + 1,
      sleeps := r.sleeps + (if rest.isEmpty then 0 else 1) }

/-- `resolve_dns`, lines 56-70: resolve each hostname independently with its
own retry loop, drop hostnames that never resolve, deduplicate. -/
def resolve_dns (dns : String → List DnsOutcome) (servers : List String) : List String :=
  (servers.filterMap (fun s => (resolveLoop (dns s)).result)).dedup

/-- The retry loop of `fetch_subnet_for_ip`, lines 73-86.  An exception
sleeps unless on the last attempt; a successful response returns its
`cidr` only when the field is present and non-empty (Python truthiness of
`if subnet := response.json().get('network', {}).get('cidr')`), otherwise
the loop moves to the next attempt without sleeping. -/
def fetchSubnetLoop : List LookupOutcome → LoopTrace String
  | [] => { result := none, attempts := 0, sleeps := 0 }
  | LookupOutcome.ok cidr :: rest =>
    (match cidr with
     | some s =>
       if s = "" then
         let r := fetchSubnetLoop rest
         { result := r.result, attempts := r.attempts + 1, sleeps := r.sleeps }
       else { result := some s, attempts := 1, sleeps := 0 }
     | none =>
       let r := fetchSubnetLoop rest
       { result := r.result, attempts := r.attempts + 1, sleeps := r.sleeps })
  | LookupOutcome.error :: rest =>
    let r := fetchSubnetLoop rest
    { result := r.result, attempts := r.attempts + 1,
      sleeps := r.sleeps + (if rest.isEmpty then 0 else 1) }

/-- `fetch_subnet_for_ip`, lines 72-89: the retry loop's value if any
attempt produced a non-empty cidr, else the `/24` fallback. -/
def fetch_subnet_for_ip (ip : String) (outcomes : List LookupOutcome) : String :=
  ((fetchSubnetLoop outcomes).result).getD (fallbackSubnet ip)

/-- Python `re` class `\s` on the ASCII range, as used by the pattern
`remote\s(.*?)\s` of line 106. -/
def pySpace (c : Char) : Bool :=
  c == ' ' || c == '\t' || c == '\n' || c == '\r' || c == '\x0b' || c == '\x0c'

/-- The lazy group `(.*?)\s`: the shortest prefix of the text, made of
characters that are not whitespace (so in particular not `\n`, which `.`
would refuse anyway), followed by one whitespace character. -/
def lazyCapture : List Char → Option (List Char)
  | [] => none
  | c :: rest => if pySpace c then some [] else (lazyCapture rest).map (fun g => c :: g)

/-- One anchored trial of the pattern `remote\s(.*?)\s` at the head of the
text. -/
def matchRemoteAt : List Char → Option (List Char)
  | 'r' :: 'e' :: 'm' :: 'o' :: 't' :: 'e' :: c :: rest =>
    if pySpace c then lazyCapture rest else none
  | _ => none

/-- Leftmost match of the pattern, as `re.search` finds it. -/
def searchRemote : List Char → Option (List Char)
  | [] => none
  | c :: rest =>
    match matchRemoteAt (c :: rest) with
    | some g => some g
    | none => searchRemote rest

/-- `re.search(r'remote\s(.*?)\s', content)` with `match.group(1)`,
line 106-107. -/
def extractRemote (content : String) : Option String :=
  (searchRemote content.data).map String.mk

/-- One entry of the fetched ZIP archive: its name and the result of
`f.read().decode('utf-8')` (`none` when decoding raises). -/
structure ZipEntry where
  name : String
  decoded : Option String
deriving Repr, DecidableEq

/-- Python `file.endswith('.ovpn')`, line 103. -/
def endsWithOvpn (name : String) : Bool :=
  (".ovpn".data).isSuffixOf name.data

/-- The entry-processing loop inside one `get_servers` attempt, lines
100-107: `.ovpn` entries are decoded and their first `remote` token
collected; a decode exception escapes the loop (it is raised inside the
attempt's `try`), an entry without a match is merely skipped. -/
def collectServers : List ZipEntry → Except Unit (List String)
  | [] => Except.ok []
  | z :: rest =>
    if endsWithOvpn z.name then
      match z.decoded with
      | none => Except.error ()
      | some content =>
        match extractRemote content with
        | some srv => (collectServers rest).map (fun l => srv :: l)
        | none => collectServers rest
    else collectServers rest

/-- Outcome of one `get_servers` attempt before entry processing: an
exception (transport error, non-success status, bad ZIP), or a fetched
archive with its entries. -/
inductive FetchOutcome where
  | error
  | ok (entries : List ZipEntry)
deriving Repr, DecidableEq

/-- Whether a `get_servers` attempt raises: either the fetch itself fails,
or some `.ovpn` entry of the fetched archive fails to decode. -/
def fetchAttemptFails : FetchOutcome → Bool
  | FetchOutcome.error => true
  | FetchOutcome.ok entries =>
    match collectServers entries with
    | Except.ok _ => false
    | Except.error _ => true

/-- The retry loop of `get_servers`, lines 92-112: any exception in the
attempt (fetch or entry decode) sleeps unless on the last attempt; a
completed attempt returns its deduplicated server list
(`list(set(servers))`). -/
def getServersLoop : List FetchOutcome → LoopTrace (List String)
  | [] => { result := none, attempts := 0, sleeps := 0 }
  | FetchOutcome.ok entries :: rest =>
    (match collectServers entries with
     | Except.ok servers =>
       { result := some servers.dedup, attempts := 1, sleeps := 0 }
     | Except.error _ =>
       let r := getServersLoop rest
       { result := r.result, attempts := r.attempts + 1,
         sleeps := r.sleeps + (if rest.isEmpty then 0 else 1) })
  | FetchOutcome.error :: rest =>
    let r := getServersLoop rest
    { result := r.result, attempts := r.attempts + 1,
      sleeps := r.sleeps + (if rest.isEmpty then 0 else 1) }

/-- `get_servers`, lines 91-113: the loop's value, or `[]` after
exhausting all retries (line 113). -/
def get_servers (outcomes : List FetchOutcome) : List String :=
  ((getServersLoop outcomes).result).getD []

/-- State of the IP record file as `read_csv` encounters it: absent
(raising `FileNotFoundError`), unreadable or malformed (raising some other
exception), or readable with parsed rows. -/
inductive FileState where
  | missing
  | unreadable
  | content (rows : List IPRecord)
deriving Repr, DecidableEq

/-- `read_csv`, lines 35-44: both `except` arms log and return the empty
list, so no read failure ever propagates. -/
def read_csv : FileState → List IPRecord
  | FileState.missing => []
  | FileState.unreadable => []
  | FileState.content rows => rows

/-- The underlying CSV write inside `write_csv`'s `try`: it either
completes or raises. -/
def rawWrite (fails : Bool) : Except Unit Unit :=
  if fails then Except.error () else Except.ok ()

/-- `write_csv`, lines 46-54: an exception is logged and re-raised
(`raise`, line 54), so the failure reaches the caller unchanged. -/
def write_csv (fails : Bool) : Except Unit Unit :=
  match rawWrite fails with
  | Except.ok u => Except.ok u
  | Except.error e => Except.error e

/-- The per-IP body of the merge loop of `run`, lines 134-144: the first
existing record with this `ip` gets its `last_seen` set to `now`;
otherwise a fresh record is created with `first_seen = last_seen = now`. -/
def mergeOne (existing : List IPRecord) (now ip : String) : IPRecord :=
  match existing.find? (fun item => item.ip == ip) with
  | some entry => { entry with last_seen := now }
  | none => { ip := ip, first_seen := now, last_seen := now }

/-- The IP merge of `run`, lines 131-145: `updated_ips` is built by
appending one record per freshly resolved IP, and nothing else. -/
def mergeIPs (existing : List IPRecord) (resolved : List String) (now : String) : List IPRecord :=
  resolved.map (mergeOne existing now)

/-- One observable record-store operation performed by `run`. -/
inductive FileOp where
  | readIPs
  | writeIPs (records : List IPRecord)
  | writeSubnets (subnets : List String)
deriving Repr, DecidableEq

/-- How a run ends: one of the two early exits (lines 121 and 127), normal
completion, or the top-level `except` of lines 156-157. -/
inductive RunResult where
  | earlyNoServers
  | earlyNoIPs
  | done
  | fatal
deriving Repr, DecidableEq

/-- The whole environment a run interacts with: outcome oracles for the
three network stages, the state of the IP record file, whether each of the
two CSV writes fails, and the run timestamp `datetime.now().isoformat()`. -/
structure RunEnv where
  archive : List FetchOutcome
  dns : String → List DnsOutcome
  lookup : String → List LookupOutcome
  ipFileState : FileState
  ipWriteFails : Bool
  subnetWriteFails : Bool
  now : String

/-- The body of `run` inside its `try`, lines 116-154, threading the trace
of record-store operations; `Except.error` is an exception escaping the
body toward the top-level handler. -/
def runBody (env : RunEnv) : Except Unit RunResult × List FileOp :=
  let servers := get_servers env.archive
  if servers = [] then (Except.ok RunResult.earlyNoServers, [])
  else
    let resolved := resolve_dns env.dns servers
    if resolved = [] then (Except.ok RunResult.earlyNoIPs, [])
    else
      let existing := read_csv env.ipFileState
      let updated := mergeIPs existing resolved env.now
      match write_csv env.ipWriteFails with
      | Except.error e => (Except.error e, [FileOp.readIPs])
      | Except.ok _ =>
        let subnets := (resolved.map (fun ip => fetch_subnet_for_ip ip (env.lookup ip))).dedup
        if subnets = [] then
          (Except.ok RunResult.done, [FileOp.readIPs, FileOp.writeIPs updated])
        else
          match write_csv env.subnetWriteFails with
          | Except.error e => (Except.error e, [FileOp.readIPs, FileOp.writeIPs updated])
          | Except.ok _ =>
            (Except.ok RunResult.done,
             [FileOp.readIPs, FileOp.writeIPs updated, FileOp.writeSubnets subnets])

/-- `run`, lines 115-157: the body wrapped in the top-level handler that
catches every exception, logs it, and returns normally. -/
def run (env : RunEnv) : RunResult × List FileOp :=
  match runBody env with
  | (Except.ok r, t) => (r, t)
  | (Except.error _, t) => (RunResult.fatal, t)

/-- Sample archive entries where one entry decodes and matches while another
fails to decode. -/
def badArchiveEntries : List ZipEntry :=
  [{ name := "a.ovpn", decoded := some "remote h1 443\n" },
   { name := "b.ovpn", decoded := none }]

/-- Sample archive entries that all decode, one with a `remote` match, one
without, one that is not an `.ovpn` entry. -/
def mixedArchiveEntries : List ZipEntry :=
  [{ name := "a.ovpn", decoded := some "remote h1 443\n" },
   { name := "c.ovpn", decoded := some "nothing here\n" },
   { name := "readme.txt", decoded := none }]

/-- Sample environment where every archive fetch attempt fails. -/
def envNoServers : RunEnv :=
  { archive := [FetchOutcome.error, FetchOutcome.error, FetchOutcome.error],
    dns := fun _ => [], lookup := fun _ => [],
    ipFileState := FileState.missing, ipWriteFails := false,
    subnetWriteFails := false, now := "t1" }

/-- Sample environment where discovery and resolution succeed but the IP
record file write fails. -/
def envWriteFail : RunEnv :=
  { archive := [FetchOutcome.ok [{ name := "a.ovpn", decoded := some "remote h1 443\n" }]],
    dns := fun _ => [DnsOutcome.ok "1.2.3.4"], lookup := fun _ => [],
    ipFileState := FileState.missing, ipWriteFails := true,
    subnetWriteFails := false, now := "t1" }

/-- The record produced for one resolved IP carries that IP as its key. -/
theorem mergeOne_ip (existing : List IPRecord) (now ip : String) :
    (mergeOne existing now ip).ip = ip := by
  unfold mergeOne
  cases h : existing.find? (fun item => item.ip == ip) with
  | none => rfl
  | some entry =>
    have h2 : entry.ip = ip := by simpa using List.find?_some h
    exact h2

/-- The record produced for one resolved IP has `last_seen = now`. -/
theorem mergeOne_last_seen (existing : List IPRecord) (now ip : String) :
    (mergeOne existing now ip).last_seen = now := by
  unfold mergeOne
  cases h : existing.find? (fun item => item.ip == ip) <;> rfl

/-- Replacing `last_seen` by its current value is the identity. -/
theorem IPRecord.set_last_seen_self (r : IPRecord) (now : String) (h : r.last_seen = now) :
    { r with last_seen := now } = r := by
  cases r
  simp_all

/-- A list whose only elements satisfying `p` are all equal to a member `v`
satisfying `p` finds exactly `v`. -/
theorem find?_eq_some_of_unique {α : Type} (p : α → Bool) (v : α) :
    ∀ l : List α, v ∈ l → p v = true → (∀ x ∈ l, p x = true → x = v) →
      l.find? p = some v := by
  intro l
  induction l with
  | nil => intro hv _ _; exact absurd hv (List.not_mem_nil v)
  | cons a l ih =>
    intro hv hp huniq
    by_cases ha : p a = true
    · rw [List.find?_cons_of_pos _ ha, huniq a (List.mem_cons_self a l) ha]
    · rw [List.find?_cons_of_neg _ (by simpa using ha)]
      rcases List.mem_cons.mp hv with h | h
      · exact absurd (h ▸ hp) ha
      · exact ih h hp (fun x hx hpx => huniq x (List.mem_cons_of_mem a hx) hpx)

/-- Merging an already-merged store changes nothing for an IP of the
resolved set. -/
theorem mergeOne_mergeIPs (existing : List IPRecord) (resolved : List String) (now ip : String)
    (hip : ip ∈ resolved) :
    mergeOne (mergeIPs existing resolved now) now ip = mergeOne existing now ip := by
  have hv : mergeOne existing now ip ∈ mergeIPs existing resolved now :=
    List.mem_map.mpr ⟨ip, hip, rfl⟩
  have hfind : (mergeIPs existing resolved now).find? (fun item => item.ip == ip)
      = some (mergeOne existing now ip) := by
    apply find?_eq_some_of_unique _ _ _ hv
    · simp [mergeOne_ip]
    · intro x hx hpx
      rcases List.mem_map.mp hx with ⟨ip2, _, rfl⟩
      have h2 : ip2 = ip := by simpa [mergeOne_ip] using hpx
      rw [h2]
  show mergeOne (mergeIPs existing resolved now) now ip = mergeOne existing now ip
  unfold mergeOne
  rw [hfind]
  exact IPRecord.set_last_seen_self _ _ (mergeOne_last_seen existing now ip)

/-- Claim C1 (amended): after the IP merge the written store contains
records only for this run's resolved IPs; every record of the prior store
whose ip is not in the resolved set is deleted (no record of the output
carries its key), rather than retained. -/
theorem mergeIPs_keeps_only_resolved :
    ∀ (existing : List IPRecord) (resolved : List String) (now : String),
      (∀ r ∈ mergeIPs existing resolved now, r.ip ∈ resolved) ∧
      (∀ r ∈ existing, r.ip ∉ resolved →
        ∀ r2 ∈ mergeIPs existing resolved now, r2.ip ≠ r.ip) := by
  intro existing resolved now
  constructor
  · intro r hr
    rcases List.mem_map.mp hr with ⟨ip, hip, rfl⟩
    rw [mergeOne_ip]
    exact hip
  · intro r _ hnot r2 hr2 heq
    rcases List.mem_map.mp hr2 with ⟨ip, hip, rfl⟩
    rw [mergeOne_ip] at heq
    exact hnot (heq ▸ hip)

/-- Witness for C1 (amended) at a concrete store and resolved set. -/
theorem mergeIPs_keeps_only_resolved_witness :
    ({ ip := "5.6.7.8", first_seen := "t1", last_seen := "t1" } : IPRecord).ip ≠
      ({ ip := "1.2.3.4", first_seen := "t0", last_seen := "t0" } : IPRecord).ip :=
  (mergeIPs_keeps_only_resolved
      [{ ip := "1.2.3.4", first_seen := "t0", last_seen := "t0" }] ["5.6.7.8"] "t1").2
    { ip := "1.2.3.4", first_seen := "t0", last_seen := "t0" } (by decide) (by decide)
    { ip := "5.6.7.8", first_seen := "t1", last_seen := "t1" } (by decide)

/-- Counterexample to C1 as stated: a store holding `1.2.3.4`, merged with
the resolved set `{5.6.7.8}`, no longer contains any record for `1.2.3.4`
in the written store. -/
theorem mergeIPs_deletes_unseen_counterexample :
    mergeIPs [{ ip := "1.2.3.4", first_seen := "t0", last_seen := "t0" }] ["5.6.7.8"] "t1"
      = [{ ip := "5.6.7.8", first_seen := "t1", last_seen := "t1" }] ∧
    ((mergeIPs [{ ip := "1.2.3.4", first_seen := "t0", last_seen := "t0" }] ["5.6.7.8"] "t1").all
      (fun r => !(r.ip == "1.2.3.4"))) = true := by decide

/-- Claim C2: for every freshly resolved IP, an existing record with that
key is kept with `last_seen` set to the run timestamp and `first_seen`
untouched, and a missing key yields a fresh record with both timestamps
equal to the run timestamp. -/
theorem mergeIPs_updates_or_creates :
    ∀ (existing : List IPRecord) (resolved : List String) (now ip : String),
      ip ∈ resolved →
      (∀ entry, existing.find? (fun item => item.ip == ip) = some entry →
        { entry with last_seen := now } ∈ mergeIPs existing resolved now) ∧
      (existing.find? (fun item => item.ip == ip) = none →
        ({ ip := ip, first_seen := now, last_seen := now } : IPRecord) ∈
          mergeIPs existing resolved now) := by
  intro existing resolved now ip hip
  constructor
  · intro entry hfind
    have h : mergeOne existing now ip = { entry with last_seen := now } := by
      unfold mergeOne
      rw [hfind]
    exact List.mem_map.mpr ⟨ip, hip, h⟩
  · intro hfind
    have h : mergeOne existing now ip = { ip := ip, first_seen := now, last_seen := now } := by
      unfold mergeOne
      rw [hfind]
    exact List.mem_map.mpr ⟨ip, hip, h⟩

/-- Witness for C2: a known IP gets `last_seen` bumped with `first_seen`
kept. -/
theorem mergeIPs_updates_or_creates_witness :
    ({ ip := "1.2.3.4", first_seen := "t0", last_seen := "t1" } : IPRecord) ∈
      mergeIPs [{ ip := "1.2.3.4", first_seen := "t0", last_seen := "t0" }] ["1.2.3.4"] "t1" :=
  (mergeIPs_updates_or_creates
      [{ ip := "1.2.3.4", first_seen := "t0", last_seen := "t0" }] ["1.2.3.4"] "t1" "1.2.3.4"
      (by decide)).1
    { ip := "1.2.3.4", first_seen := "t0", last_seen := "t0" } (by decide)

/-- Claim C8: applying the IP merge twice with the same resolved set and
timestamp equals applying it once, and every merged record's `last_seen`
is the run timestamp. -/
theorem mergeIPs_idempotent :
    ∀ (existing : List IPRecord) (resolved : List String) (now : String),
      mergeIPs (mergeIPs existing resolved now) resolved now = mergeIPs existing resolved now ∧
      ∀ r ∈ mergeIPs existing resolved now, r.last_seen = now := by
  intro existing resolved now
  constructor
  · exact List.map_congr_left (fun ip hip => mergeOne_mergeIPs existing resolved now ip hip)
  · intro r hr
    rcases List.mem_map.mp hr with ⟨ip, _, rfl⟩
    exact mergeOne_last_seen existing now ip

/-- Witness for C8 at a concrete input. -/
theorem mergeIPs_idempotent_witness :
    ({ ip := "9.9.9.9", first_seen := "t2", last_seen := "t2" } : IPRecord).last_seen = "t2" :=
  (mergeIPs_idempotent [] ["9.9.9.9"] "t2").2
    { ip := "9.9.9.9", first_seen := "t2", last_seen := "t2" } (by decide)


/-- The DNS retry loop performs at most one attempt per available outcome. -/
theorem resolveLoop_attempts_le (d : List DnsOutcome) :
    (resolveLoop d).attempts ≤ d.length := by
  induction d with
  | nil => simp [resolveLoop]
  | cons o rest ih =>
    cases o with
    | ok ip => simp [resolveLoop]
    | error =>
      show (resolveLoop rest).attempts + 1 ≤ rest.length + 1
      omega

/-- When every DNS attempt raises, the loop uses every attempt and sleeps
between consecutive attempts only. -/
theorem resolveLoop_all_error :
    ∀ d : List DnsOutcome, (∀ o ∈ d, o = DnsOutcome.error) →
      (resolveLoop d).attempts = d.length ∧ (resolveLoop d).sleeps = d.length - 1 := by
  intro d
  induction d with
  | nil => intro _; simp [resolveLoop]
  | cons o rest ih =>
    intro h
    have ho : o = DnsOutcome.error := h o (List.mem_cons_self o rest)
    subst ho
    obtain ⟨ha, hs⟩ := ih (fun x hx => h x (List.mem_cons_of_mem _ hx))
    cases rest with
    | nil => simp [resolveLoop]
    | cons b bs =>
      simp only [List.length_cons] at ha hs ⊢
      refine ⟨?_, ?_⟩
      · show (resolveLoop (b :: bs)).attempts + 1 = bs.length + 1 + 1
        omega
      · show (resolveLoop (b :: bs)).sleeps + 1 = bs.length + 1 + 1 - 1
        omega

/-- The subnet-lookup retry loop performs at most one attempt per available
outcome. -/
theorem fetchSubnetLoop_attempts_le (f : List LookupOutcome) :
    (fetchSubnetLoop f).attempts ≤ f.length := by
  induction f with
  | nil => simp [fetchSubnetLoop]
  | cons o rest ih =>
    cases o with
    | error =>
      show (fetchSubnetLoop rest).attempts + 1 ≤ rest.length + 1
      omega
    | ok cidr =>
      cases cidr with
      | none =>
        show (fetchSubnetLoop rest).attempts + 1 ≤ rest.length + 1
        omega
      | some s =>
        by_cases hs : s = ""
        · subst hs
          show (fetchSubnetLoop rest).attempts + 1 ≤ rest.length + 1
          omega
        · have he : fetchSubnetLoop (LookupOutcome.ok (some s) :: rest)
              = { result := some s, attempts := 1, sleeps := 0 } := by
            simp [fetchSubnetLoop, hs]
          rw [he]
          simp

/-- When every subnet-lookup attempt raises, the loop uses every attempt
and sleeps between consecutive attempts only. -/
theorem fetchSubnetLoop_all_error :
    ∀ f : List LookupOutcome, (∀ o ∈ f, o = LookupOutcome.error) →
      (fetchSubnetLoop f).attempts = f.length ∧ (fetchSubnetLoop f).sleeps = f.length - 1 := by
  intro f
  induction f with
  | nil => intro _; simp [fetchSubnetLoop]
  | cons o rest ih =>
    intro h
    have ho : o = LookupOutcome.error := h o (List.mem_cons_self o rest)
    subst ho
    obtain ⟨ha, hs⟩ := ih (fun x hx => h x (List.mem_cons_of_mem _ hx))
    cases rest with
    | nil => simp [fetchSubnetLoop]
    | cons b bs =>
      simp only [List.length_cons] at ha hs ⊢
      refine ⟨?_, ?_⟩
      · show (fetchSubnetLoop (b :: bs)).attempts + 1 = bs.length + 1 + 1
        omega
      · show (fetchSubnetLoop (b :: bs)).sleeps + 1 = bs.length + 1 + 1 - 1
        omega

/-- The archive-fetch retry loop performs at most one attempt per available
outcome. -/
theorem getServersLoop_attempts_le (a : List FetchOutcome) :
    (getServersLoop a).attempts ≤ a.length := by
  induction a with
  | nil => simp [getServersLoop]
  | cons o rest ih =>
    cases o with
    | error =>
      show (getServersLoop rest).attempts + 1 ≤ rest.length + 1
      omega
    | ok entries =>
      cases hc : collectServers entries with
      | ok servers => simp [getServersLoop, hc]
      | error u =>
        have he : getServersLoop (FetchOutcome.ok entries :: rest)
            = { result := (getServersLoop rest).result,
                attempts := (getServersLoop rest).attempts + 1,
                sleeps := (getServersLoop rest).sleeps + (if rest.isEmpty then 0 else 1) } := by
          simp [getServersLoop, hc]
        rw [he]
        show (getServersLoop rest).attempts + 1 ≤ rest.length + 1
        omega

/-- When every archive-fetch attempt raises (either in the fetch or while
decoding an entry), the loop uses every attempt and sleeps between
consecutive attempts only. -/
theorem getServersLoop_all_fail :
    ∀ a : List FetchOutcome, (∀ o ∈ a, fetchAttemptFails o = true) →
      (getServersLoop a).attempts = a.length ∧ (getServersLoop a).sleeps = a.length - 1 := by
  intro a
  induction a with
  | nil => intro _; simp [getServersLoop]
  | cons o rest ih =>
    intro h
    obtain ⟨ha, hs⟩ := ih (fun x hx => h x (List.mem_cons_of_mem _ hx))
    have ho := h o (List.mem_cons_self o rest)
    cases o with
    | error =>
      cases rest with
      | nil => simp [getServersLoop]
      | cons b bs =>
        simp only [List.length_cons] at ha hs ⊢
        refine ⟨?_, ?_⟩
        · show (getServersLoop (b :: bs)).attempts + 1 = bs.length + 1 + 1
          omega
        · show (getServersLoop (b :: bs)).sleeps + 1 = bs.length + 1 + 1 - 1
          omega
    | ok entries =>
      cases hc : collectServers entries with
      | ok servers => simp [fetchAttemptFails, hc] at ho
      | error u =>
        have he : getServersLoop (FetchOutcome.ok entries :: rest)
            = { result := (getServersLoop rest).result,
                attempts := (getServersLoop rest).attempts + 1,
                sleeps := (getServersLoop rest).sleeps + (if rest.isEmpty then 0 else 1) } := by
          simp [getServersLoop, hc]
        rw [he]
        cases rest with
        | nil => simp_all [getServersLoop]
        | cons b bs =>
          simp only [List.length_cons] at ha hs ⊢
          refine ⟨?_, ?_⟩
          · show (getServersLoop (b :: bs)).attempts + 1 = bs.length + 1 + 1
            omega
          · show (getServersLoop (b :: bs)).sleeps + 1 = bs.length + 1 + 1 - 1
            omega

/-- Claim C4: a retrying stage given `k` attempt outcomes performs at most
`k` attempts per item, and when every attempt of a stage fails it performs
exactly `k` attempts with exactly `k - 1` inter-attempt delays (none after
the final attempt). -/
theorem retry_attempts_and_sleeps_bounded :
    ∀ (k : Nat) (d : List DnsOutcome) (f : List LookupOutcome) (a : List FetchOutcome),
      d.length = k → f.length = k → a.length = k →
      ((resolveLoop d).attempts ≤ k ∧ (fetchSubnetLoop f).attempts ≤ k ∧
        (getServersLoop a).attempts ≤ k) ∧
      ((∀ o ∈ d, o = DnsOutcome.error) →
        (resolveLoop d).attempts = k ∧ (resolveLoop d).sleeps = k - 1) ∧
      ((∀ o ∈ f, o = LookupOutcome.error) →
        (fetchSubnetLoop f).attempts = k ∧ (fetchSubnetLoop f).sleeps = k - 1) ∧
      ((∀ o ∈ a, fetchAttemptFails o = true) →
        (getServersLoop a).attempts = k ∧ (getServersLoop a).sleeps = k - 1) := by
  intro k d f a hd hf ha
  subst hd
  refine ⟨⟨resolveLoop_attempts_le d, ?_, ?_⟩, ?_, ?_, ?_⟩
  · rw [← hf]; exact fetchSubnetLoop_attempts_le f
  · rw [← ha]; exact getServersLoop_attempts_le a
  · intro h; exact resolveLoop_all_error d h
  · intro h; rw [← hf]; exact fetchSubnetLoop_all_error f h
  · intro h; rw [← ha]; exact getServersLoop_all_fail a h

/-- Witness for C4 with `k = 3` and all attempts failing. -/
theorem retry_attempts_and_sleeps_bounded_witness :
    (resolveLoop [DnsOutcome.error, DnsOutcome.error, DnsOutcome.error]).attempts = 3 ∧
    (resolveLoop [DnsOutcome.error, DnsOutcome.error, DnsOutcome.error]).sleeps = 2 :=
  (retry_attempts_and_sleeps_bounded 3
      [DnsOutcome.error, DnsOutcome.error, DnsOutcome.error]
      [LookupOutcome.error, LookupOutcome.error, LookupOutcome.error]
      [FetchOutcome.error, FetchOutcome.error, FetchOutcome.error]
      (by decide) (by decide) (by decide)).2.1 (by decide)

/-- When no attempt yields a non-empty cidr, the subnet-lookup loop
produces no value. -/
theorem fetchSubnetLoop_result_none :
    ∀ outcomes : List LookupOutcome,
      (∀ o ∈ outcomes, o = LookupOutcome.error ∨ o = LookupOutcome.ok none ∨
        o = LookupOutcome.ok (some "")) →
      (fetchSubnetLoop outcomes).result = none := by
  intro outcomes
  induction outcomes with
  | nil => intro _; rfl
  | cons o rest ih =>
    intro h
    have hrest := fun x hx => h x (List.mem_cons_of_mem _ hx)
    rcases h o (List.mem_cons_self o rest) with ho | ho | ho <;> subst ho <;>
      simp [fetchSubnetLoop, ih hrest]

/-- Claim C3: when every lookup attempt fails or yields no non-empty CIDR,
the classifier returns exactly the `/24` synthesized from the first three
octets, for every dotted-quad input. -/
theorem fetch_subnet_fallback_determinism :
    ∀ (ip a b c d : String) (outcomes : List LookupOutcome),
      (splitDot ip.data).map String.mk = [a, b, c, d] →
      (∀ o ∈ outcomes, o = LookupOutcome.error ∨ o = LookupOutcome.ok none ∨
        o = LookupOutcome.ok (some "")) →
      fetch_subnet_for_ip ip outcomes = a ++ "." ++ b ++ "." ++ c ++ ".0/24" := by
  intro ip a b c d outcomes hsplit hout
  have h1 : (fetchSubnetLoop outcomes).result = none := fetchSubnetLoop_result_none outcomes hout
  have h2 : ((splitDot ip.data).take 3).map String.mk = [a, b, c] := by
    rw [List.map_take, hsplit]
    rfl
  show ((fetchSubnetLoop outcomes).result).getD (fallbackSubnet ip) = _
  rw [h1]
  show fallbackSubnet ip = _
  unfold fallbackSubnet
  rw [h2]
  show a ++ "." ++ (b ++ "." ++ c) ++ ".0/24" = a ++ "." ++ b ++ "." ++ c ++ ".0/24"
  simp [String.append_assoc]

/-- Witness for C3: the spec's own example, with the lookup service down
for all three attempts. -/
theorem fetch_subnet_fallback_determinism_witness :
    fetch_subnet_for_ip "203.0.113.55"
        [LookupOutcome.error, LookupOutcome.error, LookupOutcome.error]
      = "203" ++ "." ++ "0" ++ "." ++ "113" ++ ".0/24" :=
  fetch_subnet_fallback_determinism "203.0.113.55" "203" "0" "113" "55"
    [LookupOutcome.error, LookupOutcome.error, LookupOutcome.error]
    (by decide) (by decide)

/-- Claim C9: a successful lookup response whose `network.cidr` field is
present but empty behaves exactly like a response with the field absent:
same loop trace, hence the same further attempts and the same `/24`
fallback, and the empty value is never returned. -/
theorem empty_cidr_treated_as_absent :
    ∀ (ip : String) (rest : List LookupOutcome),
      fetchSubnetLoop (LookupOutcome.ok (some "") :: rest)
        = fetchSubnetLoop (LookupOutcome.ok none :: rest) ∧
      fetch_subnet_for_ip ip (LookupOutcome.ok (some "") :: rest)
        = fetch_subnet_for_ip ip (LookupOutcome.ok none :: rest) := by
  intro ip rest
  have h : fetchSubnetLoop (LookupOutcome.ok (some "") :: rest)
      = fetchSubnetLoop (LookupOutcome.ok none :: rest) := by
    simp [fetchSubnetLoop]
  exact ⟨h, by simp [fetch_subnet_for_ip, h]⟩

/-- When every `.ovpn` entry decodes, the entry loop completes without an
exception, and every matched endpoint of every entry is collected. -/
theorem collectServers_spec :
    ∀ entries : List ZipEntry,
      (∀ z ∈ entries, endsWithOvpn z.name = true → z.decoded.isSome = true) →
      ∃ l, collectServers entries = Except.ok l ∧
        ∀ z ∈ entries, ∀ content srv,
          endsWithOvpn z.name = true → z.decoded = some content →
          extractRemote content = some srv → srv ∈ l := by
  intro entries
  induction entries with
  | nil =>
    intro _
    exact ⟨[], rfl, fun z hz => absurd hz (List.not_mem_nil z)⟩
  | cons z rest ih =>
    intro h
    obtain ⟨l, hl, hmem⟩ := ih (fun w hw => h w (List.mem_cons_of_mem _ hw))
    by_cases hz : endsWithOvpn z.name = true
    · have hsome : z.decoded.isSome = true := h z (List.mem_cons_self z rest) hz
      obtain ⟨content0, hc0⟩ := Option.isSome_iff_exists.mp hsome
      cases hex : extractRemote content0 with
      | some srv0 =>
        refine ⟨srv0 :: l, ?_, ?_⟩
        · simp [collectServers, hz, hc0, hex, hl, Except.map]
        · intro w hw content srv hwz hdec hex2
          rcases List.mem_cons.mp hw with rfl | hw2
          · rw [hc0] at hdec
            injection hdec with hce
            subst hce
            rw [hex] at hex2
            injection hex2 with hse
            subst hse
            exact List.mem_cons_self _ _
          · exact List.mem_cons_of_mem _ (hmem w hw2 content srv hwz hdec hex2)
      | none =>
        refine ⟨l, ?_, ?_⟩
        · simp [collectServers, hz, hc0, hex, hl]
        · intro w hw content srv hwz hdec hex2
          rcases List.mem_cons.mp hw with rfl | hw2
          · rw [hc0] at hdec
            injection hdec with hce
            subst hce
            rw [hex] at hex2
            cases hex2
          · exact hmem w hw2 content srv hwz hdec hex2
    · refine ⟨l, ?_, ?_⟩
      · simp [collectServers, hz, hl]
      · intro w hw content srv hwz hdec hex2
        rcases List.mem_cons.mp hw with rfl | hw2
        · exact absurd hwz hz
        · exact hmem w hw2 content srv hwz hdec hex2

/-- Claim C5 (amended): within a successfully fetched archive in which
every `.ovpn` entry decodes, entries that contain no match for the
remote-endpoint pattern are skipped and the endpoints extracted from the
other entries are still returned; an entry that fails to decode, however,
aborts the whole attempt. -/
theorem get_servers_skips_unmatched_entries :
    ∀ (entries : List ZipEntry) (rest : List FetchOutcome),
      (∀ z ∈ entries, endsWithOvpn z.name = true → z.decoded.isSome = true) →
      ∀ z ∈ entries, ∀ content srv,
        endsWithOvpn z.name = true → z.decoded = some content →
        extractRemote content = some srv →
        srv ∈ get_servers (FetchOutcome.ok entries :: rest) := by
  intro entries rest h z hz content srv hname hdec hex
  obtain ⟨l, hl, hmem⟩ := collectServers_spec entries h
  have hg : get_servers (FetchOutcome.ok entries :: rest) = l.dedup := by
    simp [get_servers, getServersLoop, hl]
  rw [hg]
  exact List.mem_dedup.mpr (hmem z hz content srv hname hdec hex)

/-- Witness for C5 (amended): the endpoint of a matching entry is returned
even though a sibling entry has no match and a non-`.ovpn` entry is not
decodable. -/
theorem get_servers_skips_unmatched_entries_witness :
    "h1" ∈ get_servers [FetchOutcome.ok mixedArchiveEntries] :=
  get_servers_skips_unmatched_entries mixedArchiveEntries [] (by decide)
    { name := "a.ovpn", decoded := some "remote h1 443\n" } (by decide)
    "remote h1 443\n" "h1" (by decide) (by decide) (by decide)

/-- Counterexample to C5 as stated: an archive whose entries are one good
`.ovpn` file declaring `remote h1 443` and one `.ovpn` file that fails to
decode.  Although every fetch attempt succeeds, the decode failure aborts
each whole attempt, so nothing is returned, not even `h1`. -/
theorem get_servers_decode_failure_counterexample :
    get_servers [FetchOutcome.ok badArchiveEntries, FetchOutcome.ok badArchiveEntries,
        FetchOutcome.ok badArchiveEntries] = [] ∧
    ¬ "h1" ∈ get_servers [FetchOutcome.ok badArchiveEntries, FetchOutcome.ok badArchiveEntries,
        FetchOutcome.ok badArchiveEntries] := by decide

/-- Claim C6: a run in which discovery yields no servers, or resolution
yields no IPs, performs no record-store operation at all. -/
theorem run_early_exit_touches_no_files :
    ∀ env : RunEnv,
      get_servers env.archive = [] ∨ resolve_dns env.dns (get_servers env.archive) = [] →
      (run env).2 = [] := by
  intro env h
  by_cases hs : get_servers env.archive = []
  · simp [run, runBody, hs]
  · rcases h with h | h
    · exact absurd h hs
    · simp [run, runBody, hs, h]

/-- Witness for C6: every fetch attempt fails, the record store is never
touched. -/
theorem run_early_exit_touches_no_files_witness :
    (run envNoServers).2 = [] :=
  run_early_exit_touches_no_files envNoServers (Or.inl (by decide))

/-- Claim C7: `write_csv` re-raises the underlying write failure unchanged
(never swallows it); any exception escaping the run body is caught at the
top level, so `run` returns normally with a `fatal` outcome; in
particular, a failing IP-store write propagates out of the write, stops
the run right there, and is caught. -/
theorem write_failure_propagates_run_catches :
    (∀ b, write_csv b = rawWrite b ∧ (b = true → write_csv b = Except.error ())) ∧
    (∀ (env : RunEnv) (t : List FileOp) (ex : Unit),
      runBody env = (Except.error ex, t) → run env = (RunResult.fatal, t)) ∧
    (∀ env : RunEnv, env.ipWriteFails = true →
      get_servers env.archive ≠ [] →
      resolve_dns env.dns (get_servers env.archive) ≠ [] →
      runBody env = (Except.error (), [FileOp.readIPs]) ∧
      run env = (RunResult.fatal, [FileOp.readIPs])) := by
  refine ⟨?_, ?_, ?_⟩
  · intro b
    refine ⟨by cases b <;> rfl, ?_⟩
    intro hb
    subst hb
    rfl
  · intro env t ex h
    simp [run, h]
  · intro env hw hs hr
    have h1 : runBody env = (Except.error (), [FileOp.readIPs]) := by
      simp [runBody, hs, hr, hw, write_csv, rawWrite]
    exact ⟨h1, by simp [run, h1]⟩

/-- Witness for C7: a concrete environment where the IP-store write fails;
the run ends fatal right after the store read, without reaching the subnet
stage, and returns normally. -/
theorem write_failure_propagates_run_catches_witness :
    run envWriteFail = (RunResult.fatal, [FileOp.readIPs]) :=
  (write_failure_propagates_run_catches.2.2 envWriteFail rfl (by decide) (by decide)).2

/-- Claim C10: `read_csv` returns the empty collection for a missing file
and for any other read failure alike, so a corrupted IP store silently
restarts history: merging over it creates every record afresh with
`first_seen = last_seen = now`. -/
theorem read_csv_returns_empty_on_failure :
    read_csv FileState.missing = [] ∧ read_csv FileState.unreadable = [] ∧
    ∀ (resolved : List String) (now : String) (r : IPRecord),
      r ∈ mergeIPs (read_csv FileState.unreadable) resolved now →
      r.first_seen = now ∧ r.last_seen = now := by
  refine ⟨rfl, rfl, ?_⟩
  intro resolved now r hr
  rcases List.mem_map.mp hr with ⟨ip, _, rfl⟩
  exact ⟨rfl, rfl⟩

/-- Witness for C10: with an unreadable store, a resolved IP's record is
created with both timestamps equal to the run timestamp. -/
theorem read_csv_returns_empty_on_failure_witness :
    ({ ip := "1.2.3.4", first_seen := "t1", last_seen := "t1" } : IPRecord).first_seen = "t1" ∧
    ({ ip := "1.2.3.4", first_seen := "t1", last_seen := "t1" } : IPRecord).last_seen = "t1" :=
  read_csv_returns_empty_on_failure.2.2 ["1.2.3.4"] "t1"
    { ip := "1.2.3.4", first_seen := "t1", last_seen := "t1" } (by decide)
